import Mathlib

/-!
Shallow embedding of `src/app.py` (searchablePDF): a document preparer
(`pdf_to_base64_first_two_pages`) and an asynchronous submit/poll/fetch
client (`create_searchable_pdf`).

Conventions of the embedding:
* Bytes are `Nat` with the side condition `< 256` where it matters.
* Python strings that the program manipulates character-wise are `List Char`;
  paths, URLs and messages are Lean `String`s (whose `data` is a `List Char`).
* External effects (HTTP responses, the filesystem) are passed in explicitly:
  the network is a `World` record of responses, the filesystem a function
  from path to optional contents.
* The unbounded `while True` poll loop is modelled with explicit fuel; a
  `none` result means the fuel ran out, and genuine divergence is the
  statement that every fuel amount yields `none`.
* PyPDF2 parsing/serialization and actual file reading are external
  libraries, so they appear as abstract parameters (`serialize`, the
  prepared payload); base64, page selection, URL string processing and the
  whole HTTP orchestration are embedded from the source.
-/

namespace SearchablePDF

/-! ### Base64 (models Python `base64.b64encode` / `base64.b64decode`) -/

def b64alphabet : List Char :=
  "ABCDEFGHIJKLMNOPQRSTUVWXYZabcdefghijklmnopqrstuvwxyz0123456789+/".data

def b64chr (n : Nat) : Char := b64alphabet.getD n '='

def idxAux (c : Char) : List Char → Nat
  | [] => 0
  | a :: rest => if a == c then 0 else idxAux c rest + 1

def b64idx (c : Char) : Nat := idxAux c b64alphabet

/-- Standard base64 encoding of a byte list, three bytes at a time, with
`=` padding, as produced by Python `base64.b64encode`. -/
def b64e : List Nat → List Char
  | [] => []
  | [a] => [b64chr (a / 4), b64chr (a % 4 * 16), '=', '=']
  | [a, b] => [b64chr (a / 4), b64chr (a % 4 * 16 + b / 16), b64chr (b % 16 * 4), '=']
  | a :: b :: c :: rest =>
    b64chr (a / 4) :: b64chr (a % 4 * 16 + b / 16) ::
      b64chr (b % 16 * 4 + c / 64) :: b64chr (c % 64) :: b64e rest

/-- Base64 decoding on well-formed (correctly padded) input, as accepted by
Python `base64.b64decode`: four characters at a time, `=` padding only in
the final quantum. -/
def b64d : List Char → List Nat
  | c1 :: c2 :: c3 :: c4 :: rest =>
    if c3 = '=' then [b64idx c1 * 4 + b64idx c2 / 16]
    else if c4 = '=' then
      [b64idx c1 * 4 + b64idx c2 / 16, b64idx c2 % 16 * 16 + b64idx c3 / 4]
    else
      (b64idx c1 * 4 + b64idx c2 / 16) ::
        (b64idx c2 % 16 * 16 + b64idx c3 / 4) ::
        (b64idx c3 % 4 * 64 + b64idx c4) :: b64d rest
  | _ => []

theorem b64idx_b64chr_fin : ∀ s : Fin 64, b64idx (b64chr s.val) = s.val := by decide

theorem b64chr_ne_pad_fin : ∀ s : Fin 64, b64chr s.val ≠ '=' := by decide

theorem b64idx_b64chr (s : Nat) (h : s < 64) : b64idx (b64chr s) = s :=
  b64idx_b64chr_fin ⟨s, h⟩

theorem b64chr_ne_pad (s : Nat) (h : s < 64) : b64chr s ≠ '=' :=
  b64chr_ne_pad_fin ⟨s, h⟩

theorem b64_roundtrip (bs : List Nat) (h : ∀ x ∈ bs, x < 256) : b64d (b64e bs) = bs := by
  induction bs using b64e.induct with
  | case1 => rfl
  | case2 a =>
    have ha : a < 256 := h a (by simp)
    have e1 := b64idx_b64chr (a / 4) (by omega)
    have e2 := b64idx_b64chr (a % 4 * 16) (by omega)
    simp only [b64e, b64d, if_true, eq_self_iff_true, e1, e2, List.cons.injEq, and_true]
    omega
  | case3 a b =>
    have ha : a < 256 := h a (by simp)
    have hb : b < 256 := h b (by simp)
    have h3 : b64chr (b % 16 * 4) ≠ '=' := b64chr_ne_pad _ (by omega)
    have e1 := b64idx_b64chr (a / 4) (by omega)
    have e2 := b64idx_b64chr (a % 4 * 16 + b / 16) (by omega)
    have e3 := b64idx_b64chr (b % 16 * 4) (by omega)
    simp only [b64e, b64d, if_neg h3, if_true, eq_self_iff_true, e1, e2, e3,
      List.cons.injEq, and_true]
    exact ⟨by omega, by omega⟩
  | case4 a b c rest ih =>
    have ha : a < 256 := h a (by simp)
    have hb : b < 256 := h b (by simp)
    have hc : c < 256 := h c (by simp)
    have hrest : ∀ x ∈ rest, x < 256 := fun x hx => h x (by simp [hx])
    have h3 : b64chr (b % 16 * 4 + c / 64) ≠ '=' := b64chr_ne_pad _ (by omega)
    have h4 : b64chr (c % 64) ≠ '=' := b64chr_ne_pad _ (by omega)
    have e1 := b64idx_b64chr (a / 4) (by omega)
    have e2 := b64idx_b64chr (a % 4 * 16 + b / 16) (by omega)
    have e3 := b64idx_b64chr (b % 16 * 4 + c / 64) (by omega)
    have e4 := b64idx_b64chr (c % 64) (by omega)
    simp only [b64e, b64d, if_neg h3, if_neg h4, e1, e2, e3, e4, ih hrest,
      List.cons.injEq, and_true]
    exact ⟨by omega, by omega, by omega⟩

/-! ### Python string operations used by the source -/

/-- Literal prefix test on character lists. -/
def litPre : List Char → List Char → Bool
  | [], _ => true
  | _ :: _, [] => false
  | p :: ps, c :: cs => p == c && litPre ps cs

/-- One fuel-indexed step list of Python `str.replace`: scan left to right,
replace each non-overlapping occurrence of `pat` by `rep`.  The fuel is
always instantiated with the length of the scanned list, which suffices. -/
def pyReplaceAux (pat rep : List Char) : Nat → List Char → List Char
  | 0, s => s
  | _ + 1, [] => []
  | fuel + 1, c :: cs =>
    if pat ≠ [] ∧ litPre pat (c :: cs) then
      rep ++ pyReplaceAux pat rep fuel ((c :: cs).drop pat.length)
    else
      c :: pyReplaceAux pat rep fuel cs

/-- Python `s.replace(pat, rep)` for nonempty `pat`. -/
def strReplace (s pat rep : String) : String :=
  ⟨pyReplaceAux pat.data rep.data s.data.length s.data⟩

/-- Fuel-indexed core of Python `str.split(sep)`: `acc` is the current token
in reverse.  The fuel is always instantiated with `length + 1`, which
suffices for nonempty separators. -/
def pySplitAux (sep : List Char) : Nat → List Char → List Char → List (List Char)
  | 0, acc, rest => [acc.reverse ++ rest]
  | _ + 1, acc, [] => [acc.reverse]
  | fuel + 1, acc, c :: cs =>
    if litPre sep (c :: cs) then
      acc.reverse :: pySplitAux sep fuel [] ((c :: cs).drop sep.length)
    else
      pySplitAux sep fuel (c :: acc) cs

/-- Python `s.split(sep)` for a nonempty separator. -/
def pySplit (s sep : List Char) : List (List Char) :=
  pySplitAux sep (s.length + 1) [] s

/-- Embeds `result_location.split('/')[-1].split('?')[0]` (src/app.py line 57). -/
def extract_result_id (result_location : String) : String :=
  ⟨List.headD (pySplit (List.getLastD (pySplit result_location.data ['/']) []) ['?']) []⟩

/-- Modelled from the spec: "the last path segment of the header URL,
stripped of any query string" — the last `/`-separated segment with
everything from the first `?` on removed. -/
def spec_result_id (result_location : String) : String :=
  ⟨(List.getLastD (pySplit result_location.data ['/']) []).takeWhile (fun c => c != '?')⟩

/-! ### Document preparer (src/app.py lines 8–28) -/

/-- The pages the `PdfWriter` receives: `reader.pages[page_num]` for
`page_num in range(min(2, len(reader.pages)))`. -/
def first_two_pages {α : Type} (pages : List α) : List α :=
  (List.range (min 2 pages.length)).filterMap fun i => pages[i]?

/-- `pdf_to_base64_first_two_pages`: select the first two pages, serialize
the assembled document (PyPDF2's `writer.write` is external, hence the
abstract `serialize`), then base64-encode the buffer.  The result is the
character list of the payload string. -/
def pdf_to_base64_first_two_pages {α : Type} (serialize : List α → List Nat)
    (pages : List α) : List Char :=
  b64e (serialize (first_two_pages pages))

theorem first_two_pages_eq_take {α : Type} (pages : List α) :
    first_two_pages pages = pages.take 2 := by
  match pages with
  | [] => rfl
  | [a] => rfl
  | a :: b :: l =>
    have hmin : min 2 (a :: b :: l).length = 2 := by
      simp only [List.length_cons]
      omega
    have hr : List.range 2 = [0, 1] := rfl
    simp only [first_two_pages, hmin, hr, List.filterMap_cons, List.filterMap_nil,
      List.getElem?_cons_zero, List.getElem?_cons_succ, List.take_succ_cons,
      List.take_zero]

/-! ### Async job client (src/app.py lines 30–83)

The three HTTP exchanges are inputs in a `World`.  Each exchange either
yields a response (`Except.ok`) or fails at the transport level
(`Except.error` with a message), modelling a raised `requests` exception.
The function's observable behaviour is an event trace, the Python return
value (`none` = Python `None`), and the final filesystem. -/

/-- The error taxonomy of the spec; the source raises plain `Exception`s at
the corresponding sites, with these messages. -/
inductive Err : Type
  | documentReadError (msg : String)
  | submissionError (msg : String)
  | pollingError (msg : String)
  | retrievalError (msg : String)
  | transportError (msg : String)
  deriving DecidableEq, Repr

/-- One HTTP response: status code, `.text` body, the
`Operation-Location` header (the only header the source reads), and
`.content` body bytes (used by the fetch). -/
structure Resp : Type where
  status : Nat
  text : String
  opLocation : Option String
  content : List Nat
  deriving DecidableEq, Repr

/-- The remote service's behaviour for one invocation: the POST response,
the stream of poll GET responses, and the final PDF GET response. -/
structure World : Type where
  post : Except String Resp
  poll : Nat → Except String Resp
  fetch : Except String Resp

/-- A filesystem: path → contents. -/
def FS : Type := String → Option (List Nat)

def writeFS (fs : FS) (path : String) (bytes : List Nat) : FS :=
  fun p => if p = path then some bytes else fs p

/-- Observable events of one run, in order. -/
inductive Event : Type
  | postReq
  | pollReq (i : Nat)
  | sleepSecs (n : Nat)
  | fetchReq
  | fileWrite (path : String) (bytes : List Nat)
  deriving DecidableEq, Repr

def isSleepEv : Event → Bool
  | .sleepSecs _ => true
  | _ => false

def isFetchEv : Event → Bool
  | .fetchReq => true
  | _ => false

def isPollEv : Event → Bool
  | .pollReq _ => true
  | _ => false

def isWriteEv : Event → Bool
  | .fileWrite _ _ => true
  | _ => false

def statusOf : Except String Resp → Option Nat
  | .ok r => some r.status
  | .error _ => none

/-- The `while True` poll loop (src/app.py lines 62–70), fuel-indexed:
`none` means the fuel ran out before the loop exited.  `i` counts the GET
requests issued so far. -/
def poll_loop (w : World) : Nat → Nat → Option (List Event × Except Err Unit)
  | 0, _ => none
  | fuel + 1, i =>
    match w.poll i with
    | .error m => some ([.pollReq i], .error (.transportError m))
    | .ok r =>
      if r.status = 200 then some ([.pollReq i], .ok ())
      else if r.status = 202 then
        match poll_loop w fuel (i + 1) with
        | none => none
        | some (evs, res) => some (.pollReq i :: .sleepSecs 5 :: evs, res)
      else
        some ([.pollReq i],
          .error (.pollingError ("GET request failed: " ++ toString r.status ++ " " ++ r.text)))

/-- Model of `create_searchable_pdf(file_path, endpoint, api_key)`.  `prep` is the
outcome of `pdf_to_base64_first_two_pages(file_path)` (file reading and PDF
parsing are external; an error is a raised `DocumentReadError`).  The
result is `none` when the poll loop's fuel ran out, otherwise the event
trace, the Python return value (always `None` on success — the source has
no `return` statement), and the final filesystem. -/
def create_searchable_pdf (fuel : Nat) (file_path : String)
    (prep : Except String String) (w : World) (fs : FS) :
    Option (List Event × Except Err (Option String) × FS) :=
  match prep with
  | .error m => some ([], .error (.documentReadError m), fs)
  | .ok _base64Source_data =>
    match w.post with
    | .error m => some ([.postReq], .error (.transportError m), fs)
    | .ok post_response =>
      if post_response.status ≠ 202 then
        some ([.postReq],
          .error (.submissionError
            ("POST request failed: " ++ toString post_response.status ++ " " ++
              post_response.text)), fs)
      else
        match post_response.opLocation with
        | none =>
          some ([.postReq],
            .error (.submissionError "Operation-Location header not found in POST response."),
            fs)
        | some result_location =>
          let _result_id := extract_result_id result_location
          match poll_loop w fuel 0 with
          | none => none
          | some (pevs, .error e) => some (.postReq :: pevs, .error e, fs)
          | some (pevs, .ok ()) =>
            match w.fetch with
            | .error m =>
              some (.postReq :: pevs ++ [.fetchReq], .error (.transportError m), fs)
            | .ok pdf_response =>
              if pdf_response.status = 200 then
                let output_pdf_path := strReplace file_path ".pdf" "_searchable.pdf"
                some (.postReq :: pevs ++ [.fetchReq, .fileWrite output_pdf_path pdf_response.content],
                  .ok none, writeFS fs output_pdf_path pdf_response.content)
              else
                some (.postReq :: pevs ++ [.fetchReq],
                  .error (.retrievalError
                    ("Failed to retrieve the PDF: " ++ toString pdf_response.status ++ " " ++
                      pdf_response.text)), fs)

/-! ### Behaviour of the poll loop -/

/-- Trace of a poll loop run that issues requests `i, i+1, …, i+k`, sleeping
5 seconds after each non-final one. -/
def pollEvents : Nat → Nat → List Event
  | i, 0 => [.pollReq i]
  | i, k + 1 => .pollReq i :: .sleepSecs 5 :: pollEvents (i + 1) k

theorem pollEvents_filter_sleep : ∀ k i, ((pollEvents i k).filter isSleepEv).length = k := by
  intro k
  induction k with
  | zero => intro i; rfl
  | succ k ih => intro i; simp [pollEvents, List.filter_cons, isSleepEv, ih (i + 1)]

theorem pollEvents_filter_fetch : ∀ k i, (pollEvents i k).filter isFetchEv = [] := by
  intro k
  induction k with
  | zero => intro i; rfl
  | succ k ih => intro i; simp [pollEvents, List.filter_cons, isFetchEv, ih (i + 1)]

theorem pollEvents_filter_write : ∀ k i, (pollEvents i k).filter isWriteEv = [] := by
  intro k
  induction k with
  | zero => intro i; rfl
  | succ k ih => intro i; simp [pollEvents, List.filter_cons, isWriteEv, ih (i + 1)]

theorem pollEvents_filter_poll : ∀ k i, ((pollEvents i k).filter isPollEv).length = k + 1 := by
  intro k
  induction k with
  | zero => intro i; rfl
  | succ k ih => intro i; simp [pollEvents, List.filter_cons, isPollEv, ih (i + 1)]

/-- If every poll response is a 202, the loop never exits, whatever the fuel. -/
theorem poll_loop_none (w : World) (h : ∀ j, statusOf (w.poll j) = some 202) :
    ∀ fuel i, poll_loop w fuel i = none := by
  intro fuel
  induction fuel with
  | zero => intro i; rfl
  | succ f ih =>
    intro i
    have hi := h i
    cases hc : w.poll i with
    | error m => rw [hc] at hi; simp [statusOf] at hi
    | ok r =>
      rw [hc] at hi
      simp only [statusOf, Option.some.injEq] at hi
      simp [poll_loop, hc, hi, ih (i + 1)]

/-- If the first `k` responses are 202 and response `k` is 200, the loop
exits normally after `k` sleeps, given enough fuel. -/
theorem poll_loop_ok (w : World) :
    ∀ k i fuel, k < fuel →
      (∀ j, j < k → statusOf (w.poll (i + j)) = some 202) →
      statusOf (w.poll (i + k)) = some 200 →
      poll_loop w fuel i = some (pollEvents i k, .ok ()) := by
  intro k
  induction k with
  | zero =>
    intro i fuel hfuel h202 h200
    obtain ⟨f, rfl⟩ : ∃ f, fuel = f + 1 := ⟨fuel - 1, by omega⟩
    rw [Nat.add_zero] at h200
    cases hc : w.poll i with
    | error m => rw [hc] at h200; simp [statusOf] at h200
    | ok r =>
      rw [hc] at h200
      simp only [statusOf, Option.some.injEq] at h200
      simp [poll_loop, hc, h200, pollEvents]
  | succ k ih =>
    intro i fuel hfuel h202 h200
    obtain ⟨f, rfl⟩ : ∃ f, fuel = f + 1 := ⟨fuel - 1, by omega⟩
    have h0 := h202 0 (by omega)
    rw [Nat.add_zero] at h0
    cases hc : w.poll i with
    | error m => rw [hc] at h0; simp [statusOf] at h0
    | ok r =>
      rw [hc] at h0
      simp only [statusOf, Option.some.injEq] at h0
      have hrec := ih (i + 1) f (by omega)
        (fun j hj => by
          have hz := h202 (j + 1) (by omega)
          rwa [show i + (j + 1) = i + 1 + j by omega] at hz)
        (by rwa [show i + (k + 1) = i + 1 + k by omega] at h200)
      simp [poll_loop, hc, h0, hrec, pollEvents]

/-- If the first `k` responses are 202 and response `k` has any other
non-200 status, the loop raises `PollingError` there, given enough fuel. -/
theorem poll_loop_err (w : World) :
    ∀ k i fuel r, k < fuel →
      (∀ j, j < k → statusOf (w.poll (i + j)) = some 202) →
      w.poll (i + k) = .ok r → r.status ≠ 200 → r.status ≠ 202 →
      poll_loop w fuel i =
        some (pollEvents i k,
          .error (.pollingError ("GET request failed: " ++ toString r.status ++ " " ++ r.text))) := by
  intro k
  induction k with
  | zero =>
    intro i fuel r hfuel h202 hr h200 h202r
    obtain ⟨f, rfl⟩ : ∃ f, fuel = f + 1 := ⟨fuel - 1, by omega⟩
    rw [Nat.add_zero] at hr
    simp [poll_loop, hr, h200, h202r, pollEvents]
  | succ k ih =>
    intro i fuel r hfuel h202 hr h200 h202r
    obtain ⟨f, rfl⟩ : ∃ f, fuel = f + 1 := ⟨fuel - 1, by omega⟩
    have h0 := h202 0 (by omega)
    rw [Nat.add_zero] at h0
    cases hc : w.poll i with
    | error m => rw [hc] at h0; simp [statusOf] at h0
    | ok r0 =>
      rw [hc] at h0
      simp only [statusOf, Option.some.injEq] at h0
      have hrec := ih (i + 1) f r (by omega)
        (fun j hj => by
          have hz := h202 (j + 1) (by omega)
          rwa [show i + (j + 1) = i + 1 + j by omega] at hz)
        (by rwa [show i + (k + 1) = i + 1 + k by omega] at hr) h200 h202r
      simp [poll_loop, hc, h0, hrec, pollEvents]

/-- The poll loop only ever emits poll requests and sleeps. -/
theorem poll_loop_events_pure (w : World) :
    ∀ fuel i evs res, poll_loop w fuel i = some (evs, res) →
      ∀ e ∈ evs, isWriteEv e = false ∧ isFetchEv e = false := by
  intro fuel
  induction fuel with
  | zero => intro i evs res h; exact absurd h (by simp [poll_loop])
  | succ f ih =>
    intro i evs res h
    cases hc : w.poll i with
    | error m =>
      simp only [poll_loop, hc, Option.some.injEq, Prod.mk.injEq] at h
      obtain ⟨rfl, rfl⟩ := h
      intro e he
      simp only [List.mem_singleton] at he
      subst he
      exact ⟨rfl, rfl⟩
    | ok r =>
      by_cases h200 : r.status = 200
      · simp only [poll_loop, hc, h200, if_pos rfl, Option.some.injEq, Prod.mk.injEq] at h
        obtain ⟨rfl, rfl⟩ := h
        intro e he
        simp only [List.mem_singleton] at he
        subst he
        exact ⟨rfl, rfl⟩
      · by_cases h202 : r.status = 202
        · simp only [poll_loop, hc, h200, h202, if_neg, if_pos, ite_false, ite_true] at h
          cases hp : poll_loop w f (i + 1) with
          | none => rw [hp] at h; simp at h
          | some pr =>
            obtain ⟨evs', res'⟩ := pr
            rw [hp] at h
            simp only [Option.some.injEq, Prod.mk.injEq] at h
            obtain ⟨rfl, rfl⟩ := h
            intro e he
            simp only [List.mem_cons] at he
            rcases he with rfl | rfl | he
            · exact ⟨rfl, rfl⟩
            · exact ⟨rfl, rfl⟩
            · exact ih (i + 1) evs' res hp e he
        · simp only [poll_loop, hc, h200, h202, ite_false, Option.some.injEq,
            Prod.mk.injEq] at h
          obtain ⟨rfl, rfl⟩ := h
          intro e he
          simp only [List.mem_singleton] at he
          subst he
          exact ⟨rfl, rfl⟩

/-! ### Helper lemmas and concrete worlds -/

/-- Substring test: `sub` occurs somewhere in `s`. -/
def containsSub (s sub : List Char) : Bool :=
  (List.range (s.length + 1)).any fun i => litPre sub (s.drop i)

theorem litPre_append (p rest : List Char) : litPre p (p ++ rest) = true := by
  induction p with
  | nil => rfl
  | cons c cs ih => simp [litPre, ih]

theorem containsSub_of_middle (pre sub post : List Char) :
    containsSub (pre ++ sub ++ post) sub = true := by
  rw [containsSub, List.any_eq_true]
  refine ⟨pre.length, ?_, ?_⟩
  · simp only [List.mem_range, List.length_append]
    omega
  · rw [List.append_assoc, List.drop_left]
    exact litPre_append sub post

theorem pyReplaceAux_no_match (pat rep : List Char) :
    ∀ fuel s, (∀ i, litPre pat (s.drop i) = false) → pyReplaceAux pat rep fuel s = s := by
  intro fuel
  induction fuel with
  | zero => intro s _; rfl
  | succ f ih =>
    intro s h
    match s with
    | [] => rfl
    | c :: cs =>
      have h0 : litPre pat ((c :: cs).drop 0) = false := h 0
      rw [List.drop_zero] at h0
      have hcond : ¬(pat ≠ [] ∧ litPre pat (c :: cs)) := by
        intro hc
        rw [h0] at hc
        exact Bool.false_ne_true hc.2
      rw [pyReplaceAux, if_neg hcond]
      congr 1
      exact ih cs fun i => by
        have := h (i + 1)
        rwa [List.drop_succ_cons] at this

theorem litPre_all_false_of_bounded (pat : List Char) (hp : pat ≠ []) (s : List Char)
    (h : ∀ i, i < s.length → litPre pat (s.drop i) = false) :
    ∀ i, litPre pat (s.drop i) = false := by
  intro i
  by_cases hi : i < s.length
  · exact h i hi
  · rw [List.drop_eq_nil_of_le (by omega)]
    cases pat with
    | nil => exact absurd rfl hp
    | cons a l => rfl

/-- Head of a Python split on `'?'` is everything before the first `'?'`. -/
theorem pySplitAux_q_headD :
    ∀ fuel (acc l : List Char), l.length < fuel →
      List.headD (pySplitAux ['?'] fuel acc l) [] =
        acc.reverse ++ l.takeWhile (fun c => c != '?') := by
  intro fuel
  induction fuel with
  | zero => intro acc l h; omega
  | succ f ih =>
    intro acc l h
    match l with
    | [] => simp [pySplitAux]
    | c :: cs =>
      by_cases hq : c = '?'
      · subst hq
        have hlit : litPre ['?'] ('?' :: cs) = true := by simp [litPre]
        simp [pySplitAux, hlit, List.takeWhile_cons]
      · have hlit : litPre ['?'] (c :: cs) = false := by
          simp only [litPre, Bool.and_eq_true, beq_iff_eq]
          simp [Ne.symm hq]
        have hlen : cs.length < f := by
          simp only [List.length_cons] at h
          omega
        rw [pySplitAux, hlit]
        simp only [Bool.false_eq_true, if_false]
        rw [ih (c :: acc) cs hlen]
        simp [List.takeWhile_cons, hq]

/-- A remote service that accepts the submission, completes on the first
poll, and serves `content` on the fetch. -/
def okWorld (content : List Nat) : World where
  post := .ok ⟨202, "", some "https://e/analyzeResults/abc123?api-version=x", []⟩
  poll := fun _ => .ok ⟨200, "", none, []⟩
  fetch := .ok ⟨200, "", none, content⟩

/-- The whole successful run of `create_searchable_pdf`, given a successful
submission, a poll loop that exits normally, and a 200 fetch. -/
theorem create_success_run (fuel : Nat) (file_path pay : String) (w : World) (r : Resp)
    (loc : String) (pevs : List Event) (fr : Resp) (fs : FS)
    (hpost : w.post = .ok r) (hst : r.status = 202) (hloc : r.opLocation = some loc)
    (hpoll : poll_loop w fuel 0 = some (pevs, .ok ()))
    (hfetch : w.fetch = .ok fr) (hfst : fr.status = 200) :
    create_searchable_pdf fuel file_path (.ok pay) w fs =
      some (.postReq :: pevs ++
          [.fetchReq, .fileWrite (strReplace file_path ".pdf" "_searchable.pdf") fr.content],
        .ok none, writeFS fs (strReplace file_path ".pdf" "_searchable.pdf") fr.content) := by
  simp [create_searchable_pdf, hpost, hst, hloc, hpoll, hfetch, hfst]

/-! ### Claims -/

/-- C4: for every parseable input PDF with `pageCount ≤ 2` the Preparer
includes every page of the source in the truncated document; for
`pageCount > 2` exactly the first two pages are included and no others. -/
theorem c4_first_two_pages_selection {α : Type} (pages : List α) :
    (pages.length ≤ 2 → first_two_pages pages = pages) ∧
    (2 < pages.length →
      first_two_pages pages = pages.take 2 ∧ (first_two_pages pages).length = 2) := by
  constructor
  · intro h
    rw [first_two_pages_eq_take, List.take_of_length_le h]
  · intro h
    refine ⟨first_two_pages_eq_take pages, ?_⟩
    rw [first_two_pages_eq_take, List.length_take]
    omega

theorem c4_witness :
    first_two_pages ([10, 20, 30] : List Nat) = [10, 20] ∧
    first_two_pages ([7] : List Nat) = [7] ∧
    first_two_pages ([] : List Nat) = [] := by
  refine ⟨?_, ?_, ?_⟩
  · rw [(c4_first_two_pages_selection ([10, 20, 30] : List Nat)).2 (by decide) |>.1]
    decide
  · exact (c4_first_two_pages_selection ([7] : List Nat)).1 (by decide)
  · exact (c4_first_two_pages_selection ([] : List Nat)).1 (by decide)

/-- C8: base64-decoding the payload produced by the Preparer reproduces
exactly the bytes of the serialized truncated document (decode ∘ encode is
the identity on byte lists), and that document consists of exactly the
selected (first `min 2`) pages. -/
theorem c8_encoding_roundtrip {α : Type} (serialize : List α → List Nat) (pages : List α)
    (h : ∀ x ∈ serialize (first_two_pages pages), x < 256) :
    b64d (pdf_to_base64_first_two_pages serialize pages) = serialize (first_two_pages pages) ∧
    first_two_pages pages = pages.take 2 :=
  ⟨b64_roundtrip _ h, first_two_pages_eq_take pages⟩

theorem c8_witness :
    b64d (pdf_to_base64_first_two_pages (fun l : List Nat => l) [0, 255, 100, 9]) =
      first_two_pages [0, 255, 100, 9] :=
  (c8_encoding_roundtrip (fun l : List Nat => l) [0, 255, 100, 9] (by decide)).1

/-- C6: the job identifier extracted by the source
(`result_location.split('/')[-1].split('?')[0]`) equals the last path
segment of the `Operation-Location` URL with any query string stripped; in
particular a URL ending in `/analyzeResults/abc123?api-version=x` yields
`abc123`. -/
theorem c6_result_id_extraction :
    (∀ loc : String, extract_result_id loc = spec_result_id loc) ∧
    extract_result_id "https://e/analyzeResults/abc123?api-version=x" = "abc123" := by
  constructor
  · intro loc
    have h := pySplitAux_q_headD
      ((List.getLastD (pySplit loc.data ['/']) []).length + 1) []
      (List.getLastD (pySplit loc.data ['/']) []) (by omega)
    simp only [pySplit] at h
    simp only [extract_result_id, spec_result_id, pySplit, h, List.reverse_nil,
      List.nil_append]
  · rfl

/-- C1: with poll responses [202, 202, 200] the run performs exactly two
5-second delayed retries and then exactly one fetch attempt; with poll
responses [202, 500] it raises `PollingError` after the second poll
response, without any fetch attempt and without touching the filesystem. -/
theorem c1_poll_sequences :
    (∀ fuel file_path pay (w : World) r loc (fs : FS),
      3 ≤ fuel → w.post = .ok r → r.status = 202 → r.opLocation = some loc →
      statusOf (w.poll 0) = some 202 → statusOf (w.poll 1) = some 202 →
      statusOf (w.poll 2) = some 200 →
      ∃ evs res fs',
        create_searchable_pdf fuel file_path (.ok pay) w fs = some (evs, res, fs') ∧
        (evs.filter isSleepEv).length = 2 ∧
        (evs.filter isFetchEv).length = 1 ∧
        evs.take 7 = [.postReq, .pollReq 0, .sleepSecs 5, .pollReq 1, .sleepSecs 5,
          .pollReq 2, .fetchReq]) ∧
    (∀ fuel file_path pay (w : World) r loc r1 (fs : FS),
      2 ≤ fuel → w.post = .ok r → r.status = 202 → r.opLocation = some loc →
      statusOf (w.poll 0) = some 202 → w.poll 1 = .ok r1 → r1.status = 500 →
      create_searchable_pdf fuel file_path (.ok pay) w fs =
        some ([.postReq, .pollReq 0, .sleepSecs 5, .pollReq 1],
          .error (.pollingError ("GET request failed: 500 " ++ r1.text)), fs)) := by
  constructor
  · intro fuel file_path pay w r loc fs hfuel hpost hst hloc hp0 hp1 hp2
    have hpoll : poll_loop w fuel 0 = some (pollEvents 0 2, .ok ()) := by
      refine poll_loop_ok w 2 0 fuel (by omega) ?_ (by simpa using hp2)
      intro j hj
      cases j with
      | zero => simpa using hp0
      | succ j' =>
        cases j' with
        | zero => simpa using hp1
        | succ j'' => omega
    cases hf : w.fetch with
    | error m =>
      refine ⟨.postReq :: pollEvents 0 2 ++ [.fetchReq], .error (.transportError m), fs,
        ?_, by decide, by decide, by decide⟩
      simp [create_searchable_pdf, hpost, hst, hloc, hpoll, hf]
    | ok fr =>
      by_cases hfst : fr.status = 200
      · refine ⟨.postReq :: pollEvents 0 2 ++
          [.fetchReq, .fileWrite (strReplace file_path ".pdf" "_searchable.pdf") fr.content],
          .ok none, writeFS fs (strReplace file_path ".pdf" "_searchable.pdf") fr.content,
          ?_, ?_, ?_, ?_⟩
        · exact create_success_run fuel file_path pay w r loc (pollEvents 0 2) fr fs
            hpost hst hloc hpoll hf hfst
        · simp [pollEvents, List.filter_cons, isSleepEv]
        · simp [pollEvents, List.filter_cons, isFetchEv]
        · rfl
      · refine ⟨.postReq :: pollEvents 0 2 ++ [.fetchReq],
          .error (.retrievalError
            ("Failed to retrieve the PDF: " ++ toString fr.status ++ " " ++ fr.text)), fs,
          ?_, by decide, by decide, by decide⟩
        simp [create_searchable_pdf, hpost, hst, hloc, hpoll, hf, hfst]
  · intro fuel file_path pay w r loc r1 fs hfuel hpost hst hloc hp0 hp1 hst1
    have hpoll : poll_loop w fuel 0 =
        some (pollEvents 0 1,
          .error (.pollingError ("GET request failed: " ++ toString r1.status ++ " " ++ r1.text))) := by
      refine poll_loop_err w 1 0 fuel r1 (by omega) ?_ (by simpa using hp1)
        (by omega) (by omega)
      intro j hj
      cases j with
      | zero => simpa using hp0
      | succ j' => omega
    rw [hst1] at hpoll
    simp [create_searchable_pdf, hpost, hst, hloc, hpoll, pollEvents]
    congr 1

theorem c1_witness :
    (∃ evs res fs',
      create_searchable_pdf 3 "original.pdf" (.ok "PAY")
        { post := .ok ⟨202, "", some "https://e/analyzeResults/a?v=1", []⟩,
          poll := fun i => .ok ⟨if i < 2 then 202 else 200, "", none, []⟩,
          fetch := .ok ⟨200, "", none, [1]⟩ } (fun _ => none) = some (evs, res, fs') ∧
      (evs.filter isSleepEv).length = 2 ∧
      (evs.filter isFetchEv).length = 1 ∧
      evs.take 7 = [.postReq, .pollReq 0, .sleepSecs 5, .pollReq 1, .sleepSecs 5,
        .pollReq 2, .fetchReq]) ∧
    create_searchable_pdf 2 "original.pdf" (.ok "PAY")
        { post := .ok ⟨202, "", some "https://e/analyzeResults/a?v=1", []⟩,
          poll := fun i => .ok ⟨if i = 0 then 202 else 500, "boom", none, []⟩,
          fetch := .ok ⟨200, "", none, [1]⟩ } (fun _ => none) =
      some ([.postReq, .pollReq 0, .sleepSecs 5, .pollReq 1],
        .error (.pollingError ("GET request failed: 500 " ++ "boom")), fun _ => none) := by
  constructor
  · exact c1_poll_sequences.1 3 "original.pdf" "PAY" _ _ "https://e/analyzeResults/a?v=1"
      (fun _ => none) (by omega) rfl rfl rfl (by decide) (by decide) (by decide)
  · exact c1_poll_sequences.2 2 "original.pdf" "PAY" _ _ "https://e/analyzeResults/a?v=1"
      ⟨500, "boom", none, []⟩ (fun _ => none) (by omega) rfl rfl rfl (by decide) rfl rfl

/-- C2 counterexample: a 202 submission response whose body is `"SOMEBODY"`
but which lacks the `Operation-Location` header raises a `SubmissionError`
whose message is the fixed string
`"Operation-Location header not found in POST response."`, which contains
neither the status code `202` nor the response body — refuting the claim
that every `SubmissionError` message includes status code and body. -/
theorem c2_counterexample :
    create_searchable_pdf 1 "original.pdf" (.ok "PAY")
        { post := .ok ⟨202, "SOMEBODY", none, []⟩,
          poll := fun _ => .ok ⟨200, "", none, []⟩,
          fetch := .ok ⟨200, "", none, []⟩ } (fun _ => none) =
      some ([.postReq],
        .error (.submissionError "Operation-Location header not found in POST response."),
        fun _ => none) ∧
    containsSub "Operation-Location header not found in POST response.".data
      "SOMEBODY".data = false ∧
    containsSub "Operation-Location header not found in POST response.".data
      "202".data = false := by
  refine ⟨rfl, by decide, by decide⟩

/-- C2 (amended): a non-202 submission response raises `SubmissionError`
whose message contains the status code and the response body, with no
further network calls and no filesystem change; a 202 response without the
`Operation-Location` header also raises `SubmissionError` with no further
network calls and no filesystem change, but with a fixed message that does
not mention status or body. -/
theorem c2_submission_failures :
    (∀ fuel file_path pay (w : World) r (fs : FS),
      w.post = .ok r → r.status ≠ 202 →
      create_searchable_pdf fuel file_path (.ok pay) w fs =
        some ([.postReq],
          .error (.submissionError
            ("POST request failed: " ++ toString r.status ++ " " ++ r.text)), fs)) ∧
    (∀ r : Resp,
      containsSub ("POST request failed: " ++ toString r.status ++ " " ++ r.text).data
          r.text.data = true ∧
      containsSub ("POST request failed: " ++ toString r.status ++ " " ++ r.text).data
          (toString r.status).data = true) ∧
    (∀ fuel file_path pay (w : World) r (fs : FS),
      w.post = .ok r → r.status = 202 → r.opLocation = none →
      create_searchable_pdf fuel file_path (.ok pay) w fs =
        some ([.postReq],
          .error (.submissionError "Operation-Location header not found in POST response."),
          fs)) := by
  refine ⟨?_, ?_, ?_⟩
  · intro fuel file_path pay w r fs hpost hst
    simp [create_searchable_pdf, hpost, hst]
  · intro r
    constructor
    · have h := containsSub_of_middle
        ("POST request failed: " ++ toString r.status ++ " ").data r.text.data []
      simpa using h
    · have h := containsSub_of_middle "POST request failed: ".data (toString r.status).data
        (" " ++ r.text).data
      simpa [List.append_assoc] using h
  · intro fuel file_path pay w r fs hpost hst hloc
    simp [create_searchable_pdf, hpost, hst, hloc]

theorem c2_witness :
    create_searchable_pdf 1 "original.pdf" (.ok "PAY")
        { post := .ok ⟨500, "oops", none, []⟩,
          poll := fun _ => .ok ⟨200, "", none, []⟩,
          fetch := .ok ⟨200, "", none, []⟩ } (fun _ => none) =
      some ([.postReq],
        .error (.submissionError ("POST request failed: " ++ toString (500 : Nat) ++ " " ++ "oops")),
        fun _ => none) ∧
    containsSub ("POST request failed: " ++ toString (500 : Nat) ++ " " ++ "oops").data
      "oops".data = true ∧
    create_searchable_pdf 1 "original.pdf" (.ok "PAY")
        { post := .ok ⟨202, "b", none, []⟩,
          poll := fun _ => .ok ⟨200, "", none, []⟩,
          fetch := .ok ⟨200, "", none, []⟩ } (fun _ => none) =
      some ([.postReq],
        .error (.submissionError "Operation-Location header not found in POST response."),
        fun _ => none) := by
  refine ⟨?_, ?_, ?_⟩
  · exact c2_submission_failures.1 1 "original.pdf" "PAY" _ ⟨500, "oops", none, []⟩
      (fun _ => none) rfl (by decide)
  · exact (c2_submission_failures.2.1 ⟨500, "oops", none, []⟩).1
  · exact c2_submission_failures.2.2 1 "original.pdf" "PAY" _ ⟨202, "b", none, []⟩
      (fun _ => none) rfl rfl rfl

/-- C3 counterexample: on input path `"a.pdf.pdf"` a fully successful run
writes the fetched bytes at `"a_searchable.pdf_searchable.pdf"` (every
occurrence of `".pdf"` replaced) and writes nothing at
`"a.pdf_searchable.pdf"`, the path obtained by replacing only the `.pdf`
extension — refuting the claim's path formula. -/
theorem c3_counterexample :
    (create_searchable_pdf 1 "a.pdf.pdf" (.ok "PAY") (okWorld [1, 2, 3]) (fun _ => none)).map
        (fun out => (out.1, out.2.1, out.2.2 "a.pdf_searchable.pdf",
          out.2.2 "a_searchable.pdf_searchable.pdf")) =
      some ([.postReq, .pollReq 0, .fetchReq,
          .fileWrite "a_searchable.pdf_searchable.pdf" [1, 2, 3]],
        .ok none, none, some [1, 2, 3]) := by
  rfl

/-- C3 (amended): on a 200 fetch response the run writes a file whose bytes
are identical to the response body, at exactly the path obtained from the
input path by replacing every occurrence of `".pdf"` with
`"_searchable.pdf"` (for input `"original.pdf"`, whose only occurrence is
the extension, that is `"original_searchable.pdf"`), overwriting any
existing file at that path; on any other fetch status it raises
`RetrievalError` and writes nothing. -/
theorem c3_fetch_behavior :
    (∀ fuel file_path pay (w : World) r loc pevs fr (fs : FS),
      w.post = .ok r → r.status = 202 → r.opLocation = some loc →
      poll_loop w fuel 0 = some (pevs, .ok ()) →
      w.fetch = .ok fr → fr.status = 200 →
      create_searchable_pdf fuel file_path (.ok pay) w fs =
        some (.postReq :: pevs ++
            [.fetchReq, .fileWrite (strReplace file_path ".pdf" "_searchable.pdf") fr.content],
          .ok none,
          writeFS fs (strReplace file_path ".pdf" "_searchable.pdf") fr.content) ∧
      writeFS fs (strReplace file_path ".pdf" "_searchable.pdf") fr.content
          (strReplace file_path ".pdf" "_searchable.pdf") = some fr.content) ∧
    (∀ fuel file_path pay (w : World) r loc pevs fr (fs : FS),
      w.post = .ok r → r.status = 202 → r.opLocation = some loc →
      poll_loop w fuel 0 = some (pevs, .ok ()) →
      w.fetch = .ok fr → fr.status ≠ 200 →
      create_searchable_pdf fuel file_path (.ok pay) w fs =
        some (.postReq :: pevs ++ [.fetchReq],
          .error (.retrievalError
            ("Failed to retrieve the PDF: " ++ toString fr.status ++ " " ++ fr.text)), fs)) ∧
    strReplace "original.pdf" ".pdf" "_searchable.pdf" = "original_searchable.pdf" := by
  refine ⟨?_, ?_, by decide⟩
  · intro fuel file_path pay w r loc pevs fr fs hpost hst hloc hpoll hfetch hfst
    refine ⟨create_success_run fuel file_path pay w r loc pevs fr fs
      hpost hst hloc hpoll hfetch hfst, ?_⟩
    simp [writeFS]
  · intro fuel file_path pay w r loc pevs fr fs hpost hst hloc hpoll hfetch hfst
    simp [create_searchable_pdf, hpost, hst, hloc, hpoll, hfetch, hfst]

theorem c3_witness :
    create_searchable_pdf 1 "original.pdf" (.ok "PAY") (okWorld [7, 8]) (fun _ => none) =
      some ([.postReq, .pollReq 0, .fetchReq,
          .fileWrite (strReplace "original.pdf" ".pdf" "_searchable.pdf") [7, 8]],
        .ok none,
        writeFS (fun _ => none) (strReplace "original.pdf" ".pdf" "_searchable.pdf") [7, 8]) ∧
    writeFS (fun _ => none) (strReplace "original.pdf" ".pdf" "_searchable.pdf") [7, 8]
      (strReplace "original.pdf" ".pdf" "_searchable.pdf") = some [7, 8] ∧
    create_searchable_pdf 1 "original.pdf" (.ok "PAY")
        { okWorld [] with fetch := .ok ⟨503, "down", none, []⟩ } (fun _ => none) =
      some ([.postReq, .pollReq 0, .fetchReq],
        .error (.retrievalError
          ("Failed to retrieve the PDF: " ++ toString (503 : Nat) ++ " " ++ "down")),
        fun _ => none) := by
  have h1 := (c3_fetch_behavior.1 1 "original.pdf" "PAY" (okWorld [7, 8])
    ⟨202, "", some "https://e/analyzeResults/abc123?api-version=x", []⟩
    "https://e/analyzeResults/abc123?api-version=x" [.pollReq 0] ⟨200, "", none, [7, 8]⟩
    (fun _ => none) rfl rfl rfl rfl rfl rfl)
  refine ⟨h1.1, h1.2, ?_⟩
  exact c3_fetch_behavior.2.1 1 "original.pdf" "PAY" _
    ⟨202, "", some "https://e/analyzeResults/abc123?api-version=x", []⟩
    "https://e/analyzeResults/abc123?api-version=x" [.pollReq 0] ⟨503, "down", none, []⟩
    (fun _ => none) rfl rfl rfl rfl rfl (by decide)

/-- C9: the output path replaces every occurrence of `".pdf"` in the input
path: for `"a.pdf.pdf"` it is `"a_searchable.pdf_searchable.pdf"`, which
differs from the extension-derived `"a.pdf_searchable.pdf"`; and for an
input path containing no `".pdf"` at all the output path is the input path
itself, so a successful run overwrites the source document with the
fetched bytes. -/
theorem c9_output_path_semantics :
    (strReplace "a.pdf.pdf" ".pdf" "_searchable.pdf" = "a_searchable.pdf_searchable.pdf" ∧
      strReplace "a.pdf.pdf" ".pdf" "_searchable.pdf" ≠ "a.pdf_searchable.pdf") ∧
    (∀ path : String, (∀ i, litPre ".pdf".data (path.data.drop i) = false) →
      strReplace path ".pdf" "_searchable.pdf" = path) ∧
    (∀ fuel file_path pay (w : World) r loc pevs fr (fs : FS),
      (∀ i, litPre ".pdf".data (file_path.data.drop i) = false) →
      w.post = .ok r → r.status = 202 → r.opLocation = some loc →
      poll_loop w fuel 0 = some (pevs, .ok ()) →
      w.fetch = .ok fr → fr.status = 200 →
      create_searchable_pdf fuel file_path (.ok pay) w fs =
        some (.postReq :: pevs ++ [.fetchReq, .fileWrite file_path fr.content],
          .ok none, writeFS fs file_path fr.content) ∧
      writeFS fs file_path fr.content file_path = some fr.content) := by
  have hid : ∀ path : String, (∀ i, litPre ".pdf".data (path.data.drop i) = false) →
      strReplace path ".pdf" "_searchable.pdf" = path := by
    intro path h
    have := pyReplaceAux_no_match ".pdf".data "_searchable.pdf".data path.data.length
      path.data h
    cases path with
    | mk d =>
      simp only [strReplace]
      exact congrArg String.mk this
  refine ⟨⟨by decide, by decide⟩, hid, ?_⟩
  intro fuel file_path pay w r loc pevs fr fs hno hpost hst hloc hpoll hfetch hfst
  have hrun := create_success_run fuel file_path pay w r loc pevs fr fs
    hpost hst hloc hpoll hfetch hfst
  rw [hid file_path hno] at hrun
  refine ⟨hrun, ?_⟩
  simp [writeFS]

theorem c9_witness :
    strReplace "archive" ".pdf" "_searchable.pdf" = "archive" ∧
    create_searchable_pdf 1 "archive" (.ok "PAY") (okWorld [4, 5]) (fun _ => none) =
      some ([.postReq, .pollReq 0, .fetchReq, .fileWrite "archive" [4, 5]],
        .ok none, writeFS (fun _ => none) "archive" [4, 5]) ∧
    writeFS (fun _ => none) "archive" [4, 5] "archive" = some [4, 5] := by
  have hno : ∀ i, litPre ".pdf".data ("archive".data.drop i) = false :=
    litPre_all_false_of_bounded ".pdf".data (by decide) "archive".data (by decide)
  have h := c9_output_path_semantics.2.2 1 "archive" "PAY" (okWorld [4, 5])
    ⟨202, "", some "https://e/analyzeResults/abc123?api-version=x", []⟩
    "https://e/analyzeResults/abc123?api-version=x" [.pollReq 0] ⟨200, "", none, [4, 5]⟩
    (fun _ => none) hno rfl rfl rfl rfl rfl rfl
  exact ⟨c9_output_path_semantics.2.1 "archive" hno, h.1, h.2⟩

/-- C5: when no poll request fails at the transport level, the poll loop
terminates if and only if the response sequence contains a status other
than 202: it exits normally at the first 200, raises `PollingError` at the
first other non-202 status, and for an all-202 sequence it returns `none`
(fuel exhausted) for every fuel amount — there is no attempt bound or
timeout in the loop itself. -/
theorem c5_poll_termination (w : World) (hok : ∀ i, ∃ r, w.poll i = .ok r) :
    ((∀ i, statusOf (w.poll i) = some 202) → ∀ fuel, poll_loop w fuel 0 = none) ∧
    (∀ k, (∀ j, j < k → statusOf (w.poll j) = some 202) →
      statusOf (w.poll k) = some 200 →
      ∀ fuel, k < fuel → poll_loop w fuel 0 = some (pollEvents 0 k, .ok ())) ∧
    (∀ k r, (∀ j, j < k → statusOf (w.poll j) = some 202) →
      w.poll k = .ok r → r.status ≠ 200 → r.status ≠ 202 →
      ∀ fuel, k < fuel →
        poll_loop w fuel 0 = some (pollEvents 0 k,
          .error (.pollingError ("GET request failed: " ++ toString r.status ++ " " ++ r.text)))) ∧
    ((∃ fuel out, poll_loop w fuel 0 = some out) ↔
      ∃ i, statusOf (w.poll i) ≠ some 202) := by
  refine ⟨fun h fuel => poll_loop_none w h fuel 0, ?_, ?_, ?_, ?_⟩
  · intro k h202 h200 fuel hfuel
    exact poll_loop_ok w k 0 fuel hfuel (fun j hj => by simpa using h202 j hj)
      (by simpa using h200)
  · intro k r h202 hr h200 h202r fuel hfuel
    exact poll_loop_err w k 0 fuel r hfuel (fun j hj => by simpa using h202 j hj)
      (by simpa using hr) h200 h202r
  · rintro ⟨fuel, out, hout⟩
    by_contra hall
    push_neg at hall
    rw [poll_loop_none w hall fuel 0] at hout
    exact Option.noConfusion hout
  · rintro ⟨i, hi⟩
    have hex : ∃ j, statusOf (w.poll j) ≠ some 202 := ⟨i, hi⟩
    classical
    let k := Nat.find hex
    have hk : statusOf (w.poll k) ≠ some 202 := Nat.find_spec hex
    have h202 : ∀ j, j < k → statusOf (w.poll j) = some 202 := by
      intro j hj
      have := Nat.find_min hex hj
      exact not_not.mp this
    obtain ⟨r, hr⟩ := hok k
    rw [hr] at hk
    simp only [statusOf, ne_eq, Option.some.injEq] at hk
    by_cases h200 : r.status = 200
    · exact ⟨k + 1, (pollEvents 0 k, .ok ()),
        poll_loop_ok w k 0 (k + 1) (by omega) (fun j hj => by simpa using h202 j hj)
          (by simp [statusOf, hr, h200])⟩
    · exact ⟨k + 1, _,
        poll_loop_err w k 0 (k + 1) r (by omega) (fun j hj => by simpa using h202 j hj)
          (by simpa using hr) h200 hk⟩

theorem c5_witness :
    poll_loop
        { post := .ok ⟨202, "", some "https://e/analyzeResults/a?v=1", []⟩,
          poll := fun i => .ok ⟨if i = 0 then 202 else 200, "", none, []⟩,
          fetch := .ok ⟨200, "", none, []⟩ } 2 0 =
      some (pollEvents 0 1, .ok ()) := by
  exact (c5_poll_termination _ (fun i => ⟨_, rfl⟩)).2.1 1 (by decide) (by decide) 2 (by omega)

/-- C7 counterexample: on a fully successful run on `"original.pdf"` the
operation writes `"original_searchable.pdf"` but its Python return value
is `None` (`.ok none`), not the written output path — refuting the claim
that `submitAndRetrieve` returns the `FilePath` of the output file. -/
theorem c7_counterexample :
    (create_searchable_pdf 1 "original.pdf" (.ok "PAY") (okWorld [9, 9]) (fun _ => none)).map
        (fun out => (out.2.1, out.2.2 "original_searchable.pdf")) =
      some (.ok none, some [9, 9]) ∧
    (Except.ok (none : Option String) : Except Err (Option String)) ≠
      .ok (some "original_searchable.pdf") := by
  exact ⟨rfl, by simp⟩

/-- C7 (amended): on every successful end-to-end run (submission accepted,
polling reaches 200, fetch returns 200) the operation writes the output
file at the derived path and returns `None` — the output path is only
printed, never returned. -/
theorem c7_return_value :
    ∀ fuel file_path pay (w : World) r loc pevs fr (fs : FS),
      w.post = .ok r → r.status = 202 → r.opLocation = some loc →
      poll_loop w fuel 0 = some (pevs, .ok ()) →
      w.fetch = .ok fr → fr.status = 200 →
      ∃ evs fs', create_searchable_pdf fuel file_path (.ok pay) w fs =
        some (evs, .ok none, fs') ∧
        evs.filter isWriteEv =
          [.fileWrite (strReplace file_path ".pdf" "_searchable.pdf") fr.content] := by
  intro fuel file_path pay w r loc pevs fr fs hpost hst hloc hpoll hfetch hfst
  refine ⟨_, _, create_success_run fuel file_path pay w r loc pevs fr fs
    hpost hst hloc hpoll hfetch hfst, ?_⟩
  have hpure := poll_loop_events_pure w fuel 0 pevs (.ok ()) hpoll
  have hpevs : pevs.filter isWriteEv = [] :=
    List.filter_eq_nil_iff.mpr fun e he => by simp [(hpure e he).1]
  simp [List.filter_cons, List.filter_append, isWriteEv, hpevs]

theorem c7_witness :
    ∃ evs fs', create_searchable_pdf 1 "original.pdf" (.ok "PAY") (okWorld [3])
        (fun _ => none) = some (evs, .ok none, fs') ∧
      evs.filter isWriteEv =
        [.fileWrite (strReplace "original.pdf" ".pdf" "_searchable.pdf") [3]] := by
  exact c7_return_value 1 "original.pdf" "PAY" (okWorld [3])
    ⟨202, "", some "https://e/analyzeResults/abc123?api-version=x", []⟩
    "https://e/analyzeResults/abc123?api-version=x" [.pollReq 0] ⟨200, "", none, [3]⟩
    (fun _ => none) rfl rfl rfl rfl rfl rfl

/-- C10: the operation is atomic with respect to the filesystem: whenever
any step raises (document read failure, submission failure, polling
failure, retrieval failure, or a transport error anywhere), the filesystem
is unchanged and no write event occurs; the single write happens exactly
on the fully successful path. -/
theorem c10_atomic_on_failure :
    ∀ fuel file_path (prep : Except String String) (w : World) (fs : FS) evs res fs',
      create_searchable_pdf fuel file_path prep w fs = some (evs, res, fs') →
      (∀ e, res = .error e → fs' = fs ∧ evs.filter isWriteEv = []) ∧
      (∀ v, res = .ok v → ∃ p bs, evs.filter isWriteEv = [.fileWrite p bs] ∧
        fs' = writeFS fs p bs) := by
  intro fuel file_path prep w fs evs res fs' h
  cases prep with
  | error m =>
    simp only [create_searchable_pdf, Option.some.injEq, Prod.mk.injEq] at h
    obtain ⟨he, hr, hf⟩ := h
    subst he; subst hr; subst hf
    exact ⟨fun e _ => ⟨rfl, rfl⟩, fun v hv => by simp at hv⟩
  | ok pay =>
    cases hpost : w.post with
    | error m =>
      simp only [create_searchable_pdf, hpost, Option.some.injEq, Prod.mk.injEq] at h
      obtain ⟨he, hr, hf⟩ := h
      subst he; subst hr; subst hf
      exact ⟨fun e _ => ⟨rfl, rfl⟩, fun v hv => by simp at hv⟩
    | ok r =>
      by_cases hst : r.status = 202
      · cases hloc : r.opLocation with
        | none =>
          simp only [create_searchable_pdf, hpost, hst, hloc, ne_eq, not_true_eq_false,
            ite_false, if_false, Option.some.injEq, Prod.mk.injEq] at h
          obtain ⟨he, hr, hf⟩ := h
          subst he; subst hr; subst hf
          exact ⟨fun e _ => ⟨rfl, rfl⟩, fun v hv => by simp at hv⟩
        | some loc =>
          cases hpoll : poll_loop w fuel 0 with
          | none =>
            simp [create_searchable_pdf, hpost, hst, hloc, hpoll] at h
          | some pr =>
            obtain ⟨pevs, pres⟩ := pr
            have hpure := poll_loop_events_pure w fuel 0 pevs pres hpoll
            have hpevs : pevs.filter isWriteEv = [] :=
              List.filter_eq_nil_iff.mpr fun e he => by simp [(hpure e he).1]
            cases pres with
            | error e0 =>
              simp only [create_searchable_pdf, hpost, hst, hloc, hpoll, ne_eq,
                not_true_eq_false, ite_false, if_false, Option.some.injEq,
                Prod.mk.injEq] at h
              obtain ⟨he, hr, hf⟩ := h
              subst he; subst hr; subst hf
              refine ⟨fun e _ => ⟨rfl, ?_⟩, fun v hv => by simp at hv⟩
              simp [List.filter_cons, isWriteEv, hpevs]
            | ok u =>
              cases u
              cases hfetch : w.fetch with
              | error m =>
                simp only [create_searchable_pdf, hpost, hst, hloc, hpoll, hfetch, ne_eq,
                  not_true_eq_false, ite_false, if_false, Option.some.injEq,
                  Prod.mk.injEq] at h
                obtain ⟨he, hr, hf⟩ := h
                subst he; subst hr; subst hf
                refine ⟨fun e _ => ⟨rfl, ?_⟩, fun v hv => by simp at hv⟩
                simp [List.filter_cons, List.filter_append, isWriteEv, hpevs]
              | ok fr =>
                by_cases hfst : fr.status = 200
                · simp only [create_searchable_pdf, hpost, hst, hloc, hpoll, hfetch, hfst,
                    ne_eq, not_true_eq_false, ite_false, if_false, ite_true, if_true,
                    Option.some.injEq, Prod.mk.injEq] at h
                  obtain ⟨he, hr, hf⟩ := h
                  subst he; subst hr; subst hf
                  refine ⟨fun e he => by simp at he, fun v hv => ?_⟩
                  refine ⟨strReplace file_path ".pdf" "_searchable.pdf", fr.content, ?_, rfl⟩
                  simp [List.filter_cons, List.filter_append, isWriteEv, hpevs]
                · simp only [create_searchable_pdf, hpost, hst, hloc, hpoll, hfetch, hfst,
                    ne_eq, not_true_eq_false, ite_false, if_false, Option.some.injEq,
                    Prod.mk.injEq] at h
                  obtain ⟨he, hr, hf⟩ := h
                  subst he; subst hr; subst hf
                  refine ⟨fun e _ => ⟨rfl, ?_⟩, fun v hv => by simp at hv⟩
                  simp [List.filter_cons, List.filter_append, isWriteEv, hpevs]
      · simp only [create_searchable_pdf, hpost, hst, ne_eq, not_false_eq_true, ite_true,
          if_true, Option.some.injEq, Prod.mk.injEq] at h
        obtain ⟨he, hr, hf⟩ := h
        subst he; subst hr; subst hf
        exact ⟨fun e _ => ⟨rfl, rfl⟩, fun v hv => by simp at hv⟩

theorem c10_witness :
    create_searchable_pdf 1 "original.pdf" (.error "no such file")
        (okWorld []) (fun p => if p = "x" then some [1] else none)
        = some ([], .error (.documentReadError "no such file"),
            fun p => if p = "x" then some [1] else none) ∧
    ((fun p => if p = "x" then some [1] else none) : FS) =
      (fun p => if p = "x" then some [1] else none) ∧
    ([] : List Event).filter isWriteEv = [] := by
  refine ⟨rfl, ?_, ?_⟩
  · exact (c10_atomic_on_failure 1 "original.pdf" (.error "no such file") (okWorld [])
      (fun p => if p = "x" then some [1] else none) [] _
      (fun p => if p = "x" then some [1] else none) rfl).1
      (.documentReadError "no such file") rfl |>.1
  · exact (c10_atomic_on_failure 1 "original.pdf" (.error "no such file") (okWorld [])
      (fun p => if p = "x" then some [1] else none) [] _
      (fun p => if p = "x" then some [1] else none) rfl).1
      (.documentReadError "no such file") rfl |>.2

end SearchablePDF
